import Mathlib

/-!
Verification of `gatco_apimanager` (SQLAlchemy backend), shallow embedding of
`gatco_apimanager/views/sqlalchemy/__init__.py` and
`gatco_apimanager/views/__init__.py`.

Wire values, entities and hook pipelines are embedded as executable Lean
definitions; each definition's doc comment names the Python function it
translates.
-/

set_option autoImplicit false

namespace GatcoApi

/-- A JSON-style wire value (the values appearing in request/response
mappings).  `null` is Python's `None`. -/
inductive JValue where
  | null
  | str (s : String)
  | num (n : Int)
  | boolVal (b : Bool)
deriving DecidableEq, Repr

/-! ## Pagination engine: `APIView._compute_results_per_page`, `APIView._paginated` -/

/-- Embeds `APIView._compute_results_per_page(request)`:
`results_per_page = int(request.args.get('results_per_page'))` with the
configured default on parse failure (`requested = none`), then
`if results_per_page <= 0: results_per_page = self.results_per_page`, then
`min(results_per_page, self.max_results_per_page)`. -/
def compute_results_per_page (requested : Option Int)
    (results_per_page max_results_per_page : Int) : Int :=
  let rpp : Int :=
    match requested with
    | some r => r
    | none => results_per_page
  let rpp : Int := if rpp ≤ 0 then results_per_page else rpp
  min rpp max_results_per_page

/-- The response envelope built by `APIView._paginated`.  The source builds
`dict(page=page_num, objects=objects, total_pages=total_pages,
num_results=num_results)`; a `next_page` key is never added (the Link-header
construction that would carry the next page is commented out), which the
`next_page : Option Int` field records as `none` = key absent. -/
structure Envelope (β : Type) where
  page : Int
  objects : List β
  total_pages : Int
  num_results : Int
  next_page : Option Int
deriving DecidableEq, Repr

/-- Python list slice `xs[start:stop]` for non-negative bounds, the only case
exercised by the theorems below. -/
def pySlice {α : Type} (xs : List α) (start stop : Int) : List α :=
  (xs.take stop.toNat).drop start.toNat

/-- `APIView._paginated(request, instances, deep)` for a list of instances:
`num_results = len(instances)`; per-page from `_compute_results_per_page`;
when positive, `page_num = int(request.args.get('page', 1))`,
`start = (page_num - 1) * results_per_page`,
`end = min(num_results, start + results_per_page)`,
`total_pages = int(math.ceil(num_results / results_per_page))`
(equal to `(num_results + rpp - 1) / rpp` for these non-negative operands);
`objects` is the serialized slice `instances[start:end]`. -/
def paginated {α β : Type} (serialize : α → β)
    (requested : Option Int) (results_per_page max_results_per_page : Int)
    (page_arg : Option Int) (xs : List α) : Envelope β :=
  let num_results : Int := xs.length
  let rpp : Int := compute_results_per_page requested results_per_page max_results_per_page
  let bounds : Int × Int × Int × Int :=
    if rpp > 0 then
      let page_num : Int := page_arg.getD 1
      let start : Int := (page_num - 1) * rpp
      (page_num, start, min num_results (start + rpp), (num_results + rpp - 1) / rpp)
    else
      (1, 0, num_results, 1)
  { page := bounds.1
    objects := (pySlice xs bounds.2.1 bounds.2.2.1).map serialize
    total_pages := bounds.2.2.2
    num_results := num_results
    next_page := none }

/-- Ceiling characterization of the `total_pages` arithmetic: for `0 < p`,
`(n + p - 1) / p` is the unique `q` with `n ≤ q * p < n + p`. -/
theorem ceil_div_spec (n : Nat) (p : Int) (hp : 0 < p) :
    (n : Int) ≤ (((n : Int) + p - 1) / p) * p ∧
    (((n : Int) + p - 1) / p) * p < (n : Int) + p := by
  have hadd := Int.ediv_add_emod ((n : Int) + p - 1) p
  have hnonneg := Int.emod_nonneg ((n : Int) + p - 1) (ne_of_gt hp)
  have hlt := Int.emod_lt_of_pos ((n : Int) + p - 1) hp
  have hcomm : (((n : Int) + p - 1) / p) * p = p * (((n : Int) + p - 1) / p) :=
    mul_comm _ _
  constructor <;> [skip; skip] <;> rw [hcomm] <;> omega

/-- C3: with `0 < max_results_per_page` and
`0 < results_per_page ≤ max_results_per_page`, the effective per-page equals
the requested value when `0 < requested ≤ max`, the default when
`requested ≤ 0`, and the maximum when `requested > max`; in every case it lies
in `(0, max]`. -/
theorem compute_results_per_page_correct (r dflt mx : Int)
    (hmx : 0 < mx) (hd0 : 0 < dflt) (hdm : dflt ≤ mx) :
    (0 < r → r ≤ mx → compute_results_per_page (some r) dflt mx = r) ∧
    (r ≤ 0 → compute_results_per_page (some r) dflt mx = dflt) ∧
    (mx < r → compute_results_per_page (some r) dflt mx = mx) ∧
    0 < compute_results_per_page (some r) dflt mx ∧
    compute_results_per_page (some r) dflt mx ≤ mx := by
  simp only [compute_results_per_page, min_def]
  split_ifs <;> omega

/-- Witness for `compute_results_per_page_correct` at
`requested = 5, default = 10, max = 1000`. -/
theorem compute_results_per_page_correct_witness :
    (0 < (5 : Int) → (5 : Int) ≤ 1000 →
      compute_results_per_page (some 5) 10 1000 = 5) ∧
    ((5 : Int) ≤ 0 → compute_results_per_page (some 5) 10 1000 = 10) ∧
    ((1000 : Int) < 5 → compute_results_per_page (some 5) 10 1000 = 1000) ∧
    0 < compute_results_per_page (some 5) 10 1000 ∧
    compute_results_per_page (some 5) 10 1000 ≤ 1000 :=
  compute_results_per_page_correct 5 10 1000 (by decide) (by decide) (by decide)

/-- The C4 counterexample instance: 17 results, requested per-page 5
(default 10, maximum 1000), requested page 1. -/
def c4Example : Envelope Nat :=
  paginated (fun x => x) (some 5) 10 1000 (some 1) (List.range 17)

/-- C4 counterexample: at `num_results = 17`, effective per-page 5, page 1,
the code's envelope has `total_pages = 4` and `page < total_pages`, yet it
carries no `next_page` field at all — the claim requires `next_page = page + 1`
to be present in exactly this situation. -/
theorem paginated_next_page_counterexample :
    c4Example.total_pages = 4 ∧ c4Example.page < c4Example.total_pages ∧
    c4Example.next_page = none ∧ c4Example.next_page ≠ some (c4Example.page + 1) := by
  decide

/-- C4 (amended): for effective per-page `p` with `0 < p ≤ max`,
`0 < default ≤ max` and requested page `k ≥ 1`, the envelope has `page = k`,
`num_results` = the collection size, `objects` = the serialized slice from
`(k-1)*p` to `min (num_results) ((k-1)*p + p)`, `total_pages` = the ceiling of
`num_results / p` (characterized by `num_results ≤ total_pages * p <
num_results + p`), and the `next_page` field is always absent (`none`), even
when `page < total_pages`. -/
theorem paginated_envelope_correct {α β : Type} (serialize : α → β)
    (xs : List α) (p dflt mx k : Int)
    (hp0 : 0 < p) (hpm : p ≤ mx) (hd0 : 0 < dflt) (hdm : dflt ≤ mx) (hk : 1 ≤ k) :
    (paginated serialize (some p) dflt mx (some k) xs).page = k ∧
    (paginated serialize (some p) dflt mx (some k) xs).num_results = xs.length ∧
    (paginated serialize (some p) dflt mx (some k) xs).objects
      = (pySlice xs ((k - 1) * p) (min (xs.length : Int) ((k - 1) * p + p))).map serialize ∧
    ((xs.length : Int)
        ≤ (paginated serialize (some p) dflt mx (some k) xs).total_pages * p ∧
      (paginated serialize (some p) dflt mx (some k) xs).total_pages * p
        < (xs.length : Int) + p) ∧
    (paginated serialize (some p) dflt mx (some k) xs).next_page = none := by
  have heff : compute_results_per_page (some p) dflt mx = p := by
    simp only [compute_results_per_page, min_def]
    split_ifs <;> omega
  have hceil := ceil_div_spec xs.length p hp0
  simp only [paginated, heff]
  rw [if_pos hp0]
  exact ⟨rfl, trivial, rfl, ⟨hceil.1, hceil.2⟩, trivial⟩

/-- Witness for `paginated_envelope_correct`: 17 results, per-page 5, page 2. -/
theorem paginated_envelope_correct_witness :
    (paginated (fun x => x) (some 5) 10 1000 (some 2) (List.range 17)).page = 2 ∧
    (paginated (fun x => x) (some 5) 10 1000 (some 2) (List.range 17)).num_results
      = (List.range 17).length ∧
    (paginated (fun x => x) (some 5) 10 1000 (some 2) (List.range 17)).objects
      = (pySlice (List.range 17) ((2 - 1) * 5)
          (min ((List.range 17).length : Int) ((2 - 1) * 5 + 5))).map (fun x => x) ∧
    (((List.range 17).length : Int)
        ≤ (paginated (fun x => x) (some 5) 10 1000 (some 2) (List.range 17)).total_pages * 5 ∧
      (paginated (fun x => x) (some 5) 10 1000 (some 2) (List.range 17)).total_pages * 5
        < ((List.range 17).length : Int) + 5) ∧
    (paginated (fun x => x) (some 5) 10 1000 (some 2) (List.range 17)).next_page = none :=
  paginated_envelope_correct (fun x => x) (List.range 17) 5 10 1000 2
    (by decide) (by decide) (by decide) (by decide) (by decide)

/-! ## Error classifier and transaction boundary: `catch_integrity_errors` -/

/-- The message payload of a `ProcessingException`: `response_exception`
distinguishes a dict message from a plain-string message. -/
inductive PMsg where
  | str (s : String)
  | dict (d : List (String × String))
deriving DecidableEq, Repr

/-- The responses the view layer produces: `json(dict(message=m), status=s)`,
`json(d, status=s)`, `text(m, status=s)`, an `HTTPResponse` returned by a hook
(identified by a tag), or the final `json(result, ...)` success payload. -/
inductive Response where
  | jsonMsg (message : String) (status : Nat)
  | jsonBody (body : List (String × String)) (status : Nat)
  | textBody (body : String) (status : Nat)
  | fromHook (tag : Nat)
  | success (tag : Nat) (status : Nat)
deriving DecidableEq, Repr

/-- A storage session over a database state `α`: `committed` is the durable
state, `staged` the in-flight working state of the open transaction. -/
structure Session (α : Type) where
  committed : α
  staged : α
deriving DecidableEq, Repr

/-- Python `session.rollback()`: discard the in-flight changes. -/
def Session.rollback {α : Type} (s : Session α) : Session α :=
  { s with staged := s.committed }

/-- Python `session.commit()`: make the staged state durable. -/
def Session.commit {α : Type} (s : Session α) : Session α :=
  { s with committed := s.staged }

/-- The storage-level exception classes caught by `catch_integrity_errors`:
`DataError`, `IntegrityError`, `ProgrammingError`. -/
inductive DBErr where
  | dataError
  | integrityError
  | programmingError
deriving DecidableEq, Repr

/-- Python `type(exception).__name__`, used as the error message. -/
def DBErr.name : DBErr → String
  | .dataError => "DataError"
  | .integrityError => "IntegrityError"
  | .programmingError => "ProgrammingError"

/-- Embeds `catch_integrity_errors(session)`: runs the wrapped view method; when it
raises one of the three storage errors, the session is rolled back and
`json({"message": type(exception).__name__}, status=520)` is returned. -/
def catch_integrity_errors {α : Type}
    (func : Session α → Except DBErr Response × Session α) (s : Session α) :
    Response × Session α :=
  match func s with
  | (.ok r, s1) => (r, s1)
  | (.error e, s1) => (.jsonMsg e.name 520, s1.rollback)

/-- A mutating view method (create / update-single / update-many /
delete-single / delete-many): it stages its field assignments, relation
mutations or deletions (`f` on the staged state) and then commits; the commit
either succeeds or raises a storage error `e`, in which case nothing was made
durable. -/
def mutatingOp {α : Type} (f : α → α) (commitError : Option DBErr)
    (resp : Response) (s : Session α) : Except DBErr Response × Session α :=
  let s1 : Session α := { s with staged := f s.staged }
  match commitError with
  | none => (.ok resp, s1.commit)
  | some e => (.error e, s1)

/-- The constructor `APIView.__init__` wraps each of these view methods with
`catch_integrity_errors(self.session)`. -/
def decorated_methods : List String :=
  ["get", "post", "patch", "put", "delete"]

/-- C1: every mutating view method is wrapped by `catch_integrity_errors`, and
when the storage layer raises an integrity/data/programming error the wrapped
method returns the structured `{"message": ...}` payload with status 520 and
the session is rolled back, leaving the session exactly as it started — the
matched entities are unchanged. -/
theorem catch_integrity_errors_rolls_back {α : Type} (f : α → α) (e : DBErr)
    (resp : Response) (s : Session α) (hsync : s.staged = s.committed) :
    catch_integrity_errors (mutatingOp f (some e) resp) s
      = (.jsonMsg e.name 520, s) ∧
    "post" ∈ decorated_methods ∧ "put" ∈ decorated_methods ∧
    "patch" ∈ decorated_methods ∧ "delete" ∈ decorated_methods := by
  refine ⟨?_, by simp [decorated_methods], by simp [decorated_methods],
    by simp [decorated_methods], by simp [decorated_methods]⟩
  cases s
  simp only [catch_integrity_errors, mutatingOp, Session.rollback]
  simp_all

/-- Witness for `catch_integrity_errors_rolls_back`: one concrete update on a
list-of-rows state whose commit raises `IntegrityError`. -/
theorem catch_integrity_errors_rolls_back_witness :
    catch_integrity_errors
        (mutatingOp (fun rows => 0 :: rows) (some DBErr.integrityError)
          (Response.success 0 200) )
        (Session.mk [1, 2] [1, 2])
      = (Response.jsonMsg DBErr.integrityError.name 520, Session.mk [1, 2] [1, 2]) ∧
    "post" ∈ decorated_methods ∧ "put" ∈ decorated_methods ∧
    "patch" ∈ decorated_methods ∧ "delete" ∈ decorated_methods :=
  catch_integrity_errors_rolls_back (fun rows => 0 :: rows) DBErr.integrityError
    (Response.success 0 200) (Session.mk [1, 2] [1, 2]) rfl

/-! ## Relation mutation engine vs plain fields: `_update_relations` and `put` -/

/-- The return value of `APIView._update_relations(query, params)`:
`tochange = frozenset(relations) & frozenset(params)` — the relation names of
the model intersected with the payload keys. -/
def update_relations_touched (model_relations payload_keys : Finset String) :
    Finset String :=
  model_relations ∩ payload_keys

/-- Embeds `APIView.put`: `field_list = frozenset(data) ^ relations` — symmetric
difference of the payload keys and the touched relation names. -/
def put_field_list (data_keys touched : Finset String) : Finset String :=
  (data_keys \ touched) ∪ (touched \ data_keys)

/-- C6: the relation mutation engine reports exactly the payload keys that
name relations of the model, and the plain-field assignment set
`field_list = data ^ touched` is disjoint from the touched relations — it is
precisely the payload keys that are not relation names, so no payload key is
applied both ways. -/
theorem update_relations_field_sets_disjoint
    (rels keys : Finset String) :
    update_relations_touched rels keys = keys.filter (fun k => k ∈ rels) ∧
    put_field_list keys (update_relations_touched rels keys)
        ∩ update_relations_touched rels keys = ∅ ∧
    put_field_list keys (update_relations_touched rels keys) = keys \ rels := by
  refine ⟨?_, ?_, ?_⟩ <;>
    · ext k
      simp only [update_relations_touched, put_field_list, Finset.mem_inter,
        Finset.mem_union, Finset.mem_sdiff, Finset.mem_filter,
        Finset.not_mem_empty]
      tauto

/-- The observable outcome of an `update-many` request body after
preprocessing: the modification counter, the touched relations, and whether
the transaction committed. -/
structure PutManyResult where
  num_modified : Nat
  touched : Finset String
  committed : Bool
deriving DecidableEq

/-- Embeds `APIView.put` with `instid is None` (update-many), lines 1410–1437:
relations are mutated via `_update_relations`, `field_list` is the symmetric
difference, the remaining `data` is re-built from `field_list`, and only
`if data:` does the loop over `query.all()` run, incrementing `num_modified`
once per matched row; `self.session.commit()` runs unconditionally. -/
def put_many_op (model_relations data_keys : Finset String) (matched : Nat) :
    PutManyResult :=
  let touched := update_relations_touched model_relations data_keys
  let field_list := put_field_list data_keys touched
  { num_modified := if field_list = ∅ then 0 else matched
    touched := touched
    committed := true }

/-- C10: when every payload key is a relation directive, the plain-field set
is empty, so `num_modified = 0` is returned even though the search matched
`n > 0` rows, the relation mutations touched every payload key, and the
transaction still committed. -/
theorem put_many_only_relations_num_modified_zero
    (rels keys : Finset String) (n : Nat)
    (hsub : keys ⊆ rels) (hn : 0 < n) :
    (put_many_op rels keys n).num_modified = 0 ∧
    (put_many_op rels keys n).touched = keys ∧
    (put_many_op rels keys n).committed = true ∧
    (put_many_op rels keys n).num_modified ≠ n := by
  have htouch : update_relations_touched rels keys = keys :=
    Finset.inter_eq_right.mpr hsub
  have hfl : put_field_list keys (update_relations_touched rels keys) = ∅ := by
    rw [htouch]
    simp [put_field_list]
  refine ⟨?_, ?_, rfl, ?_⟩
  · simp [put_many_op, hfl]
  · simp [put_many_op, htouch]
  · simp only [put_many_op, hfl, if_pos]
    omega

/-- Witness for `put_many_only_relations_num_modified_zero`: payload touching
only the relation `computers`, three matched rows. -/
theorem put_many_only_relations_num_modified_zero_witness :
    (put_many_op {"computers", "owner"} {"computers"} 3).num_modified = 0 ∧
    (put_many_op {"computers", "owner"} {"computers"} 3).touched = {"computers"} ∧
    (put_many_op {"computers", "owner"} {"computers"} 3).committed = true ∧
    (put_many_op {"computers", "owner"} {"computers"} 3).num_modified ≠ 3 :=
  put_many_only_relations_num_modified_zero {"computers", "owner"} {"computers"} 3
    (by decide) (by decide)

/-! ## Hook registration: `ModelView.__init__` -/

/-- Embeds `helpers.upper_keys(d)`: the same mapping with every key upper-cased. -/
def upper_keys {α : Type} (d : List (String × α)) : List (String × α) :=
  d.map (fun kv => (kv.1.toUpper, kv.2))

/-- Reading key `k` of a Python `defaultdict(list)` that was `update`d from
the association list `d` (on duplicate keys the later entry wins, hence the
`reverse`); a missing key yields `[]`. -/
def dict_get {α : Type} (d : List (String × List α)) (k : String) : List α :=
  (d.reverse.lookup k).getD []

/-- Embeds `ModelView.__init__`: after `self.preprocess.update(upper_keys(preprocess))`
the constructor loops over the registered `PUT_SINGLE` hooks appending each to
`PATCH_SINGLE`, and over the `PUT_MANY` hooks appending each to `PATCH_MANY`
(the observed append loops are the `foldl`s below); every other key is left as
registered. -/
def init_hook_registry {α : Type} (reg : List (String × List α)) :
    String → List α :=
  fun k =>
    if k = "PATCH_SINGLE" then
      (dict_get (upper_keys reg) "PUT_SINGLE").foldl
        (fun acc h => acc ++ [h]) (dict_get (upper_keys reg) "PATCH_SINGLE")
    else if k = "PATCH_MANY" then
      (dict_get (upper_keys reg) "PUT_MANY").foldl
        (fun acc h => acc ++ [h]) (dict_get (upper_keys reg) "PATCH_MANY")
    else dict_get (upper_keys reg) k

/-- The method `APIView.put` reads its hook sequences under these keys for both PUT and
PATCH requests (`patch` delegates to `put`). -/
def put_hook_key (patchmany : Bool) : String :=
  if patchmany then "PATCH_MANY" else "PATCH_SINGLE"

/-- Appending elements one by one is list concatenation. -/
theorem foldl_append_singleton {α : Type} (l acc : List α) :
    l.foldl (fun a h => a ++ [h]) acc = acc ++ l := by
  induction l generalizing acc with
  | nil => simp
  | cons h t ih => simp [ih]

/-- C9: after construction, the `PATCH_SINGLE` sequence of either registry
(pre or post) is the registered `PATCH_SINGLE` hooks followed by the
registered `PUT_SINGLE` hooks in registration order, likewise for
`PATCH_MANY`/`PUT_MANY`, and PUT requests select exactly these shared PATCH
keys. -/
theorem init_hook_registry_patch_alias {α : Type}
    (pre post : List (String × List α)) :
    init_hook_registry pre "PATCH_SINGLE"
      = dict_get (upper_keys pre) "PATCH_SINGLE"
          ++ dict_get (upper_keys pre) "PUT_SINGLE" ∧
    init_hook_registry pre "PATCH_MANY"
      = dict_get (upper_keys pre) "PATCH_MANY"
          ++ dict_get (upper_keys pre) "PUT_MANY" ∧
    init_hook_registry post "PATCH_SINGLE"
      = dict_get (upper_keys post) "PATCH_SINGLE"
          ++ dict_get (upper_keys post) "PUT_SINGLE" ∧
    init_hook_registry post "PATCH_MANY"
      = dict_get (upper_keys post) "PATCH_MANY"
          ++ dict_get (upper_keys post) "PUT_MANY" ∧
    init_hook_registry pre (put_hook_key false)
      = init_hook_registry pre "PATCH_SINGLE" ∧
    init_hook_registry pre (put_hook_key true)
      = init_hook_registry pre "PATCH_MANY" := by
  refine ⟨?_, ?_, ?_, ?_, rfl, rfl⟩ <;>
    simp [init_hook_registry, foldl_append_singleton]

/-! ## Hook pipeline: `APIView._search` and `APIView.post` -/

/-- Observable steps of one request, in execution order: which numbered
pre/post hooks ran, whether the search specification was compiled
(`search`/`create_query`), whether a storage query was executed, whether the
payload was deserialized (`self.deserialize`), whether a mutation was staged
(`session.add`/`setattr`), and whether `session.commit()` ran. -/
inductive Event where
  | preHook (i : Nat)
  | searchCompiled
  | storageQuery
  | deserialized
  | mutationStaged
  | committed
  | postHook (i : Nat)
deriving DecidableEq, Repr

/-- What one registered hook does on this request: return `None`
(continue), return a non-`HTTPResponse` value (ignored by MANY operations,
continue), return an `HTTPResponse` (short-circuit), or raise
`ProcessingException(message, status_code)`. -/
inductive HookOutcome where
  | proceed
  | value (v : Nat)
  | respond (tag : Nat)
  | raiseProcessing (msg : PMsg) (status : Nat)
deriving DecidableEq, Repr

/-- Embeds `response_exception(exception)`: a dict message becomes
`json(message, status)`, anything else `text(message, status)`. -/
def response_exception (msg : PMsg) (status : Nat) : Response :=
  match msg with
  | .dict d => .jsonBody d status
  | .str s => .textBody s status

/-- A hook that lets the loop continue: `None`, or a non-response value. -/
def HookOutcome.continues : HookOutcome → Bool
  | .proceed => true
  | .value _ => true
  | .respond _ => false
  | .raiseProcessing _ _ => false

/-- The loop `for preprocess in self.preprocess[...]` (and its postprocess
twin), wrapped
in `try/except ProcessingException`: each hook runs in registration order; a
returned `HTTPResponse` is returned immediately, a raised
`ProcessingException` becomes `response_exception(exception)`; the second
component counts how many hooks ran. -/
def run_hooks : List HookOutcome → Option Response × Nat
  | [] => (none, 0)
  | h :: rest =>
    match h with
    | .respond tag => (some (.fromHook tag), 1)
    | .raiseProcessing msg status => (some (response_exception msg status), 1)
    | .proceed => ((run_hooks rest).1, (run_hooks rest).2 + 1)
    | .value _ => ((run_hooks rest).1, (run_hooks rest).2 + 1)

/-- Outcome of `search(self.session, self.model, search_params)`. -/
inductive SearchOutcome where
  | ok (tag : Nat)
  | noResult
  | multipleResults
  | otherError
deriving DecidableEq, Repr

/-- One GET-collection request as `_search` sees it: whether
`json_loads(request.args.get('q'))` succeeds, the behaviour of the registered
`GET_MANY` pre-hooks, the result of the filtered search, and the behaviour of
the `GET_MANY` post-hooks. -/
structure SearchRequest where
  q_ok : Bool
  pre : List HookOutcome
  outcome : SearchOutcome
  post : List HookOutcome
deriving Repr

/-- Embeds `APIView._search(request)`: decode `q`; run the `GET_MANY` pre-hooks
(short-circuit / ProcessingException return immediately); compile and run the
filtered search, mapping `NoResultFound`, `MultipleResultsFound` and any
other failure to their structured 520 payloads; paginate (the storage query);
run the `GET_MANY` post-hooks; return `json(result, status=200)`.  Paired
with the response is the trace of observable events. -/
def search_op (r : SearchRequest) : Response × List Event :=
  if r.q_ok = false then (.jsonMsg "Unable to decode data" 520, [])
  else
    match run_hooks r.pre with
    | (some resp, n) => (resp, (List.range n).map Event.preHook)
    | (none, n) =>
      let evs := (List.range n).map Event.preHook
      match r.outcome with
      | .noResult => (.jsonMsg "No result found" 520, evs ++ [.searchCompiled])
      | .multipleResults =>
          (.jsonMsg "Multiple results found" 520, evs ++ [.searchCompiled])
      | .otherError =>
          (.jsonMsg "Unable to construct query" 520, evs ++ [.searchCompiled])
      | .ok tag =>
        let evs := evs ++ [.searchCompiled, .storageQuery]
        match run_hooks r.post with
        | (some resp, m) => (resp, evs ++ (List.range m).map Event.postHook)
        | (none, m) => (.success tag 200, evs ++ (List.range m).map Event.postHook)

/-- One POST (create) request as `APIView.post` sees it: the Content-Type
check, the `request.json` decode, the `POST` pre-hooks, whether
`self.deserialize(data)` raises a validation error, and the `POST`
post-hooks. -/
structure CreateRequest where
  content_is_json : Bool
  body_ok : Bool
  pre : List HookOutcome
  deserialize_ok : Bool
  post : List HookOutcome
deriving Repr

/-- Embeds `APIView.post(request)`: Content-Type check, body decode, `POST`
pre-hooks, then `self.deserialize(data)`, `session.add`, `session.commit()`,
serialization, `POST` post-hooks and the 201 response, with the trace of
observable events. -/
def create_op (r : CreateRequest) : Response × List Event :=
  if r.content_is_json = false then
    (.jsonMsg "Request must have Content-Type application/json header" 520, [])
  else if r.body_ok = false then (.jsonMsg "Unable to decode data" 520, [])
  else
    match run_hooks r.pre with
    | (some resp, n) => (resp, (List.range n).map Event.preHook)
    | (none, n) =>
      let evs := (List.range n).map Event.preHook
      if r.deserialize_ok = false then
        (.jsonMsg "validation errors" 520, evs ++ [.deserialized])
      else
        let evs := evs ++ [.deserialized, .mutationStaged, .committed]
        match run_hooks r.post with
        | (some resp, m) => (resp, evs ++ (List.range m).map Event.postHook)
        | (none, m) => (.success 0 201, evs ++ (List.range m).map Event.postHook)

/-- A hook list whose prefix continues and then returns an `HTTPResponse`
short-circuits the loop after exactly `p1.length + 1` hooks. -/
theorem run_hooks_respond (p1 p2 : List HookOutcome) (t : Nat)
    (h : ∀ x ∈ p1, x.continues = true) :
    run_hooks (p1 ++ .respond t :: p2) = (some (.fromHook t), p1.length + 1) := by
  induction p1 with
  | nil => rfl
  | cons x xs ih =>
    have hx : x.continues = true := h x (List.mem_cons_self x xs)
    have hxs : ∀ y ∈ xs, y.continues = true :=
      fun y hy => h y (List.mem_cons_of_mem x hy)
    cases x <;> simp_all [run_hooks, HookOutcome.continues]

/-- A hook list whose prefix continues and then raises
`ProcessingException(msg, status)` halts after exactly `p1.length + 1` hooks
with `response_exception`. -/
theorem run_hooks_raise (p1 p2 : List HookOutcome) (msg : PMsg) (status : Nat)
    (h : ∀ x ∈ p1, x.continues = true) :
    run_hooks (p1 ++ .raiseProcessing msg status :: p2)
      = (some (response_exception msg status), p1.length + 1) := by
  induction p1 with
  | nil => rfl
  | cons x xs ih =>
    have hx : x.continues = true := h x (List.mem_cons_self x xs)
    have hxs : ∀ y ∈ xs, y.continues = true :=
      fun y hy => h y (List.mem_cons_of_mem x hy)
    cases x <;> simp_all [run_hooks, HookOutcome.continues]

/-- A hook list in which every hook continues completes the loop. -/
theorem run_hooks_all_continue (l : List HookOutcome)
    (h : ∀ x ∈ l, x.continues = true) :
    run_hooks l = (none, l.length) := by
  induction l with
  | nil => rfl
  | cons x xs ih =>
    have hx : x.continues = true := h x (List.mem_cons_self x xs)
    have hxs : ∀ y ∈ xs, y.continues = true :=
      fun y hy => h y (List.mem_cons_of_mem x hy)
    cases x <;> simp_all [run_hooks, HookOutcome.continues]

/-- C2: if an earlier pre-hook lets the pipeline continue and pre-hook number
`p1.length` returns a short-circuit response, both for a search (`_search`)
and for a create (`post`) that response is returned to the caller, the only
events are the pre-hooks up to and including the short-circuiting one — no
later pre-hook, no search compilation, no storage query, no deserialization,
no staged mutation, no commit and no post-hook. -/
theorem pre_hook_short_circuit
    (sr : SearchRequest) (cr : CreateRequest)
    (p1 p2 q1 q2 : List HookOutcome) (t u : Nat)
    (hsq : sr.q_ok = true) (hsp : sr.pre = p1 ++ .respond t :: p2)
    (h1 : ∀ x ∈ p1, x.continues = true)
    (hcc : cr.content_is_json = true) (hcb : cr.body_ok = true)
    (hcp : cr.pre = q1 ++ .respond u :: q2)
    (h2 : ∀ x ∈ q1, x.continues = true) :
    search_op sr
      = (.fromHook t, (List.range (p1.length + 1)).map Event.preHook) ∧
    create_op cr
      = (.fromHook u, (List.range (q1.length + 1)).map Event.preHook) ∧
    Event.searchCompiled ∉ (search_op sr).2 ∧
    Event.storageQuery ∉ (search_op sr).2 ∧
    Event.committed ∉ (search_op sr).2 ∧
    Event.preHook (p1.length + 1) ∉ (search_op sr).2 ∧
    (∀ i, Event.postHook i ∉ (search_op sr).2) ∧
    Event.deserialized ∉ (create_op cr).2 ∧
    Event.mutationStaged ∉ (create_op cr).2 ∧
    Event.committed ∉ (create_op cr).2 ∧
    Event.preHook (q1.length + 1) ∉ (create_op cr).2 ∧
    (∀ i, Event.postHook i ∉ (create_op cr).2) := by
  have hs : search_op sr
      = (.fromHook t, (List.range (p1.length + 1)).map Event.preHook) := by
    simp only [search_op, hsq, hsp, run_hooks_respond p1 p2 t h1]
    rfl
  have hc : create_op cr
      = (.fromHook u, (List.range (q1.length + 1)).map Event.preHook) := by
    simp only [create_op, hcc, hcb, hcp, run_hooks_respond q1 q2 u h2]
    rfl
  refine ⟨hs, hc, ?_, ?_, ?_, ?_, ?_, ?_, ?_, ?_, ?_, ?_⟩ <;>
    simp [hs, hc, List.mem_map]

/-- Witness for `pre_hook_short_circuit`: a search whose second `GET_MANY`
pre-hook responds, and a create whose second `POST` pre-hook responds. -/
theorem pre_hook_short_circuit_witness :
    search_op (SearchRequest.mk true
        [HookOutcome.proceed, HookOutcome.respond 7] (SearchOutcome.ok 0) [])
      = (.fromHook 7, (List.range 2).map Event.preHook) ∧
    create_op (CreateRequest.mk true true
        [HookOutcome.value 3, HookOutcome.respond 9] true [])
      = (.fromHook 9, (List.range 2).map Event.preHook) ∧
    Event.searchCompiled ∉ (search_op (SearchRequest.mk true
        [HookOutcome.proceed, HookOutcome.respond 7] (SearchOutcome.ok 0) [])).2 ∧
    Event.storageQuery ∉ (search_op (SearchRequest.mk true
        [HookOutcome.proceed, HookOutcome.respond 7] (SearchOutcome.ok 0) [])).2 ∧
    Event.committed ∉ (search_op (SearchRequest.mk true
        [HookOutcome.proceed, HookOutcome.respond 7] (SearchOutcome.ok 0) [])).2 ∧
    Event.preHook 2 ∉ (search_op (SearchRequest.mk true
        [HookOutcome.proceed, HookOutcome.respond 7] (SearchOutcome.ok 0) [])).2 ∧
    (∀ i, Event.postHook i ∉ (search_op (SearchRequest.mk true
        [HookOutcome.proceed, HookOutcome.respond 7] (SearchOutcome.ok 0) [])).2) ∧
    Event.deserialized ∉ (create_op (CreateRequest.mk true true
        [HookOutcome.value 3, HookOutcome.respond 9] true [])).2 ∧
    Event.mutationStaged ∉ (create_op (CreateRequest.mk true true
        [HookOutcome.value 3, HookOutcome.respond 9] true [])).2 ∧
    Event.committed ∉ (create_op (CreateRequest.mk true true
        [HookOutcome.value 3, HookOutcome.respond 9] true [])).2 ∧
    Event.preHook 2 ∉ (create_op (CreateRequest.mk true true
        [HookOutcome.value 3, HookOutcome.respond 9] true [])).2 ∧
    (∀ i, Event.postHook i ∉ (create_op (CreateRequest.mk true true
        [HookOutcome.value 3, HookOutcome.respond 9] true [])).2) :=
  pre_hook_short_circuit
    (SearchRequest.mk true
      [HookOutcome.proceed, HookOutcome.respond 7] (SearchOutcome.ok 0) [])
    (CreateRequest.mk true true
      [HookOutcome.value 3, HookOutcome.respond 9] true [])
    [HookOutcome.proceed] [] [HookOutcome.value 3] [] 7 9
    rfl rfl (by decide) rfl rfl rfl (by decide)

/-- C8: a hook raising `ProcessingException(msg, status)` halts the pipeline
— shown for a search pre-hook, a search post-hook and a create pre-hook: no
later hook of that sequence runs, a pre-hook failure prevents the main
operation entirely, and the caller receives `response_exception`, which
carries exactly the hook-supplied message and status (as JSON for a dict
message, as text otherwise). -/
theorem processing_exception_halts
    (sr sr2 : SearchRequest) (cr : CreateRequest)
    (p1 p2 o1 o2 q1 q2 : List HookOutcome)
    (m1 m2 m3 : PMsg) (s1 s2 s3 : Nat) (tag : Nat)
    (hq : sr.q_ok = true) (hp : sr.pre = p1 ++ .raiseProcessing m1 s1 :: p2)
    (h1 : ∀ x ∈ p1, x.continues = true)
    (hq2 : sr2.q_ok = true) (hpre2 : ∀ x ∈ sr2.pre, x.continues = true)
    (hout2 : sr2.outcome = .ok tag)
    (hpost2 : sr2.post = o1 ++ .raiseProcessing m2 s2 :: o2)
    (h2 : ∀ x ∈ o1, x.continues = true)
    (hcc : cr.content_is_json = true) (hcb : cr.body_ok = true)
    (hcp : cr.pre = q1 ++ .raiseProcessing m3 s3 :: q2)
    (h3 : ∀ x ∈ q1, x.continues = true) :
    search_op sr = (response_exception m1 s1,
      (List.range (p1.length + 1)).map Event.preHook) ∧
    search_op sr2 = (response_exception m2 s2,
      (List.range sr2.pre.length).map Event.preHook
        ++ [.searchCompiled, .storageQuery]
        ++ (List.range (o1.length + 1)).map Event.postHook) ∧
    create_op cr = (response_exception m3 s3,
      (List.range (q1.length + 1)).map Event.preHook) ∧
    (∀ d st, response_exception (.dict d) st = .jsonBody d st) ∧
    (∀ s st, response_exception (.str s) st = .textBody s st) := by
  refine ⟨?_, ?_, ?_, fun d st => rfl, fun s st => rfl⟩
  · simp only [search_op, hq, hp, run_hooks_raise p1 p2 m1 s1 h1]
    rfl
  · simp only [search_op, hq2, run_hooks_all_continue sr2.pre hpre2, hout2,
      hpost2, run_hooks_raise o1 o2 m2 s2 h2]
    simp [List.append_assoc]
  · simp only [create_op, hcc, hcb, hcp, run_hooks_raise q1 q2 m3 s3 h3]
    rfl

/-- Witness for `processing_exception_halts` at concrete hook lists: a search
whose first pre-hook raises, a search whose second post-hook raises, and a
create whose first pre-hook raises. -/
theorem processing_exception_halts_witness :
    search_op (SearchRequest.mk true
        [HookOutcome.raiseProcessing (PMsg.str "no access") 403]
        (SearchOutcome.ok 1) [])
      = (response_exception (PMsg.str "no access") 403,
          (List.range 1).map Event.preHook) ∧
    search_op (SearchRequest.mk true [HookOutcome.proceed] (SearchOutcome.ok 2)
        [HookOutcome.proceed,
          HookOutcome.raiseProcessing (PMsg.dict [("message", "bad")]) 422])
      = (response_exception (PMsg.dict [("message", "bad")]) 422,
          (List.range (List.length
              ([HookOutcome.proceed] : List HookOutcome))).map Event.preHook
            ++ [.searchCompiled, .storageQuery]
            ++ (List.range 2).map Event.postHook) ∧
    create_op (CreateRequest.mk true true
        [HookOutcome.raiseProcessing (PMsg.str "denied") 401] true [])
      = (response_exception (PMsg.str "denied") 401,
          (List.range 1).map Event.preHook) ∧
    (∀ d st, response_exception (.dict d) st = .jsonBody d st) ∧
    (∀ s st, response_exception (.str s) st = .textBody s st) :=
  processing_exception_halts
    (SearchRequest.mk true
      [HookOutcome.raiseProcessing (PMsg.str "no access") 403]
      (SearchOutcome.ok 1) [])
    (SearchRequest.mk true [HookOutcome.proceed] (SearchOutcome.ok 2)
      [HookOutcome.proceed,
        HookOutcome.raiseProcessing (PMsg.dict [("message", "bad")]) 422])
    (CreateRequest.mk true true
      [HookOutcome.raiseProcessing (PMsg.str "denied") 401] true [])
    [] [] [HookOutcome.proceed] [] [] []
    (PMsg.str "no access") (PMsg.dict [("message", "bad")]) (PMsg.str "denied")
    403 422 401 2
    rfl rfl (by decide) rfl (by decide) rfl rfl (by decide)
    rfl rfl rfl (by decide)

/-! ## Relation remove directive: `APIView._remove_from_relation` -/

/-- A row of the related model: its primary key and its attribute values. -/
structure SubInst where
  id : Nat
  attrs : List (String × JValue)
deriving DecidableEq, Repr

/-- One element of a `remove` list as `_remove_from_relation` consumes it:
the optional `'id'` entry, the remaining attribute filters, and the
`'__delete__'` flag popped first. -/
structure RemoveElem where
  idKey : Option Nat
  attrs : List (String × JValue)
  delete : Bool
deriving DecidableEq, Repr

/-- SQLAlchemy `filter_by(**dictionary)`: every given attribute matches the row. -/
def matchesAttrs (filters : List (String × JValue)) (e : SubInst) : Bool :=
  filters.all (fun kv => e.attrs.lookup kv.1 = some kv.2)

/-- The storage state `_remove_from_relation` acts on: all rows of the
related model in query order, each matched target's relation collection (by
related-row id), and the rows passed to `session.delete`. -/
structure RelState where
  table : List SubInst
  targets : List (List Nat)
  deleted : List Nat
deriving DecidableEq, Repr

/-- Resolution of one remove element as the code does it:
`get_by(self.session, submodel, dictionary['id'])` when an `'id'` is present
— first row with that primary key — otherwise
`self.query(submodel).filter_by(**dictionary).first()` — the first matching
row of the whole related-model table, with no restriction to the targets'
relation members. -/
def resolve_remove (st : RelState) (e : RemoveElem) : Option SubInst :=
  match e.idKey with
  | some i => st.table.find? (fun s => s.id == i)
  | none => st.table.find? (fun s => matchesAttrs e.attrs s)

/-- Modelled from the spec: "resolve via identity if present, else find the
first entity among the target's current relation members matching the given
attributes" — the no-`id` search walks the given relation collection
(`members`, in collection order) instead of the whole table. -/
def resolve_remove_spec (st : RelState) (members : List Nat) (e : RemoveElem) :
    Option SubInst :=
  match e.idKey with
  | some i => st.table.find? (fun s => s.id == i)
  | none =>
      (members.filterMap (fun i => st.table.find? (fun s => s.id == i))).find?
        (fun s => matchesAttrs e.attrs s)

/-- One iteration of the `for dictionary in toremove` loop: pop
`'__delete__'`, resolve, `getattr(instance, relationname).remove(subinst)`
for every target, then `self.session.delete(subinst)` when flagged.
`list.remove` raises `ValueError` when the resolved row is not currently a
member of some target (and `remove(None)` always raises); the propagating
exception is modelled as `none`. -/
def remove_step (st : RelState) (e : RemoveElem) : Option RelState :=
  match resolve_remove st e with
  | none => none
  | some sub =>
    if st.targets.all (fun rel => sub.id ∈ rel) then
      let st1 : RelState :=
        { st with targets := st.targets.map (fun rel => rel.erase sub.id) }
      some (if e.delete then
        { st1 with
          table := st1.table.filter (fun s => s.id ≠ sub.id)
          deleted := st1.deleted ++ [sub.id] }
      else st1)
    else none

/-- Embeds `APIView._remove_from_relation(query, relationname, toremove)`: the loop
over the remove elements. -/
def remove_from_relation (st : RelState) (toremove : List RemoveElem) :
    Option RelState :=
  toremove.foldlM remove_step st

/-- The C5 counterexample state: related rows `e0` (id 0) and `e1` (id 1)
both carry `name = "a"`; the single matched target's relation collection
contains only `e1`. -/
def c5State : RelState :=
  { table := [SubInst.mk 0 [("name", JValue.str "a")],
              SubInst.mk 1 [("name", JValue.str "a")]]
    targets := [[1]]
    deleted := [] }

/-- The C5 counterexample element: no `id`, attribute filter `name = "a"`,
no deletion flag. -/
def c5Elem : RemoveElem := RemoveElem.mk none [("name", JValue.str "a")] false

/-- C5 counterexample: the claim resolves the no-`id` element to the first
matching entity **among the target's relation members** — here `e1` — and
detaches it, but the code resolves the first matching row of the whole table
— `e0`, which is not a member — so the prescribed detachment of `e1` never
happens (the code instead fails on `remove`). -/
theorem remove_from_relation_counterexample :
    resolve_remove c5State c5Elem = some (SubInst.mk 0 [("name", JValue.str "a")]) ∧
    resolve_remove_spec c5State [1] c5Elem
      = some (SubInst.mk 1 [("name", JValue.str "a")]) ∧
    resolve_remove c5State c5Elem ≠ resolve_remove_spec c5State [1] c5Elem ∧
    remove_from_relation c5State [c5Elem] = none := by
  decide

/-- C5 (amended): for a successful single-element remove, the element with an
`id` is resolved by identity and the element without an `id` is resolved to
the first row of the whole related-model table matching its attributes
(regardless of relation membership); the resolved row is detached from every
target's relation collection; and with the deletion flag the row is deleted
only after being detached from all targets (no resulting collection retains
it), while without the flag the table and deletion set are untouched. -/
theorem remove_from_relation_correct (st : RelState) (e : RemoveElem)
    (st1 : RelState)
    (hnodup : ∀ rel ∈ st.targets, rel.Nodup)
    (h : remove_from_relation st [e] = some st1) :
    ∃ sub,
      resolve_remove st e = some sub ∧
      (∀ i, e.idKey = some i →
        st.table.find? (fun s => s.id == i) = some sub) ∧
      (e.idKey = none →
        st.table.find? (fun s => matchesAttrs e.attrs s) = some sub) ∧
      st1.targets = st.targets.map (fun rel => rel.erase sub.id) ∧
      (∀ rel ∈ st1.targets, sub.id ∉ rel) ∧
      (e.delete = true → sub.id ∈ st1.deleted ∧ ∀ s ∈ st1.table, s.id ≠ sub.id) ∧
      (e.delete = false → st1.deleted = st.deleted ∧ st1.table = st.table) := by
  have hstep : remove_step st e = some st1 := by
    simpa [remove_from_relation, List.foldlM] using h
  simp only [remove_step] at hstep
  cases hres : resolve_remove st e with
  | none => rw [hres] at hstep; simp at hstep
  | some sub =>
    rw [hres] at hstep
    dsimp only at hstep
    by_cases hmem : (st.targets.all fun rel => decide (sub.id ∈ rel)) = true
    · rw [if_pos hmem] at hstep
      have hall : ∀ rel ∈ st.targets.map (fun rel => rel.erase sub.id),
          sub.id ∉ rel := by
        intro rel hrel
        obtain ⟨rel0, hrel0, hrfl⟩ := List.mem_map.mp hrel
        subst hrfl
        exact (hnodup rel0 hrel0).not_mem_erase
      cases hdel : e.delete
      · simp only [hdel, Bool.false_eq_true, if_false, Option.some.injEq] at hstep
        subst hstep
        refine ⟨sub, rfl, ?_, ?_, rfl, hall, by simp [hdel], fun _ => ⟨rfl, rfl⟩⟩
        · intro i hi
          rw [resolve_remove, hi] at hres
          exact hres
        · intro hi
          rw [resolve_remove, hi] at hres
          exact hres
      · simp only [hdel, if_true, Option.some.injEq] at hstep
        subst hstep
        refine ⟨sub, rfl, ?_, ?_, rfl, hall, ?_, by simp [hdel]⟩
        · intro i hi
          rw [resolve_remove, hi] at hres
          exact hres
        · intro hi
          rw [resolve_remove, hi] at hres
          exact hres
        · intro _
          refine ⟨by simp, ?_⟩
          intro s hs
          have hmf := List.mem_filter.mp hs
          simpa using hmf.2
    · rw [if_neg hmem] at hstep
      simp at hstep

/-- Witness for `remove_from_relation_correct`: one matching member row with
the deletion flag set. -/
theorem remove_from_relation_correct_witness :
    ∃ sub,
      resolve_remove
          (RelState.mk [SubInst.mk 1 [("name", JValue.str "a")]] [[1]] [])
          (RemoveElem.mk none [("name", JValue.str "a")] true) = some sub ∧
      (∀ i, (RemoveElem.mk none [("name", JValue.str "a")] true).idKey = some i →
        (RelState.mk [SubInst.mk 1 [("name", JValue.str "a")]] [[1]] []).table.find?
          (fun s => s.id == i) = some sub) ∧
      ((RemoveElem.mk none [("name", JValue.str "a")] true).idKey = none →
        (RelState.mk [SubInst.mk 1 [("name", JValue.str "a")]] [[1]] []).table.find?
          (fun s =>
            matchesAttrs (RemoveElem.mk none [("name", JValue.str "a")] true).attrs s)
          = some sub) ∧
      (RelState.mk [] [[]] [1]).targets
        = (RelState.mk [SubInst.mk 1 [("name", JValue.str "a")]] [[1]] []).targets.map
            (fun rel => rel.erase sub.id) ∧
      (∀ rel ∈ (RelState.mk [] [[]] [1]).targets, sub.id ∉ rel) ∧
      ((RemoveElem.mk none [("name", JValue.str "a")] true).delete = true →
        sub.id ∈ (RelState.mk [] [[]] [1]).deleted ∧
        ∀ s ∈ (RelState.mk [] [[]] [1]).table, s.id ≠ sub.id) ∧
      ((RemoveElem.mk none [("name", JValue.str "a")] true).delete = false →
        (RelState.mk [] [[]] [1]).deleted
          = (RelState.mk [SubInst.mk 1 [("name", JValue.str "a")]] [[1]] []).deleted ∧
        (RelState.mk [] [[]] [1]).table
          = (RelState.mk [SubInst.mk 1 [("name", JValue.str "a")]] [[1]] []).table) :=
  remove_from_relation_correct
    (RelState.mk [SubInst.mk 1 [("name", JValue.str "a")]] [[1]] [])
    (RemoveElem.mk none [("name", JValue.str "a")] true)
    (RelState.mk [] [[]] [1])
    (by decide) (by decide)

/-! ## Serializer / deserializer: `_dict_to_inst`, `_inst_to_dict` -/

/-- A wire mapping: JSON object sent or received by the API. -/
abbrev WireMap := List (String × JValue)

/-- An entity: each declared column's current attribute value. -/
abbrev Entity := List (String × JValue)

/-- Modelled from the spec: `helpers.has_field(model, field)` (the helper
module `views/sqlalchemy/helpers.py` is not among the available sources) —
the field is a declared column or relation of the resource definition. -/
def has_field (cols relations : List String) (f : String) : Bool :=
  cols.contains f || relations.contains f

/-- `APIView._dict_to_inst(data)` on a scalar-only model (no relations, and
no date-typed columns, so `strings_to_dates` is the identity): raise
`ValidationError("Model does not have field ...")` on any key that is not a
declared field, then build `self.model(**modelargs)` from
`props = columns ∩ keys` — a declared column absent from `data` is left as
Python `None`. -/
def dict_to_inst (cols : List String) (data : WireMap) : Except String Entity :=
  match data.find? (fun kv => !(has_field cols [] kv.1)) with
  | some kv => .error ("Model does not have field " ++ kv.1)
  | none => .ok (cols.map (fun c => (c, (data.lookup c).getD JValue.null)))

/-- Modelled from the spec: `helpers.to_dict` (missing helper module
`views/sqlalchemy/helpers.py`) as used by
`APIView._inst_to_dict` for a scalar-only resource with no include/exclude
narrowing and no computed methods — "includes every column" (a Python `None`
attribute serializes as JSON null). -/
def inst_to_dict (cols : List String) (inst : Entity) : WireMap :=
  cols.map (fun c => (c, (inst.lookup c).getD JValue.null))

/-- Looking a key up in a mapping built over `cols` evaluates the generator
exactly on declared columns. -/
theorem lookup_map_pair {β : Type} (cols : List String) (g : String → β)
    (k : String) :
    (cols.map (fun c => (c, g c))).lookup k
      = if k ∈ cols then some (g k) else none := by
  induction cols with
  | nil => simp
  | cons c cs ih =>
    by_cases hkc : k = c
    · subst hkc
      simp [List.lookup]
    · have hbeq : (k == c) = false := beq_eq_false_iff_ne.mpr hkc
      simp [List.lookup, hbeq, hkc, ih]

/-- A successful lookup means the key occurs in the mapping. -/
theorem lookup_some_key_mem {β : Type} (l : List (String × β)) (k : String)
    (v : β) (h : l.lookup k = some v) : ∃ kv ∈ l, kv.1 = k := by
  induction l with
  | nil => simp [List.lookup] at h
  | cons p tl ih =>
    obtain ⟨pk, pv⟩ := p
    by_cases hk : k = pk
    · exact ⟨(pk, pv), List.mem_cons_self _ _, hk.symm⟩
    · simp only [List.lookup, beq_eq_false_iff_ne.mpr hk] at h
      obtain ⟨kv, hkv, hfst⟩ := ih h
      exact ⟨kv, List.mem_cons_of_mem _ hkv, hfst⟩

/-- C7 counterexample: on the scalar-only model with declared columns `id`
and `name`, the well-typed mapping `{name: "x"}` (every key is a declared
column) does not round-trip — serialization emits every declared column, so
the result carries an `id: null` entry that the input does not have. -/
theorem roundtrip_counterexample :
    (dict_to_inst ["id", "name"] [("name", JValue.str "x")]).map
        (inst_to_dict ["id", "name"])
      = .ok [("id", JValue.null), ("name", JValue.str "x")] ∧
    (([("id", JValue.null), ("name", JValue.str "x")] : WireMap).lookup "id"
      ≠ ([("name", JValue.str "x")] : WireMap).lookup "id") :=
  ⟨rfl, by decide⟩

/-- C7 (amended): for a scalar-only resource with no narrowing and no
computed methods, and a well-typed wire mapping whose key set is exactly the
declared column set (every key declared, every declared column present),
deserializing and re-serializing returns a mapping equal, as a mapping, to
the input. -/
theorem serialize_deserialize_roundtrip (cols : List String) (data : WireMap)
    (hkeys : ∀ kv ∈ data, kv.1 ∈ cols)
    (hfull : ∀ c ∈ cols, (data.lookup c).isSome = true) :
    ∃ result,
      (dict_to_inst cols data).map (inst_to_dict cols) = .ok result ∧
      ∀ k, result.lookup k = data.lookup k := by
  have hcheck : data.find? (fun kv => !(has_field cols [] kv.1)) = none := by
    rw [List.find?_eq_none]
    intro kv hkv
    simp [has_field, hkeys kv hkv]
  have hE : dict_to_inst cols data
      = .ok (cols.map (fun c => (c, (data.lookup c).getD JValue.null))) := by
    rw [dict_to_inst, hcheck]
  refine ⟨inst_to_dict cols
    (cols.map (fun c => (c, (data.lookup c).getD JValue.null))), ?_, ?_⟩
  · rw [hE]
    rfl
  · intro k
    rw [inst_to_dict, lookup_map_pair, lookup_map_pair]
    by_cases hk : k ∈ cols
    · obtain ⟨v, hv⟩ := Option.isSome_iff_exists.mp (hfull k hk)
      simp [hk, hv]
    · rw [if_neg hk]
      cases hd : data.lookup k with
      | none => rfl
      | some v =>
        obtain ⟨kv, hkv, hfst⟩ := lookup_some_key_mem data k v hd
        exact absurd (hfst ▸ hkeys kv hkv) hk

/-- Witness for `serialize_deserialize_roundtrip`: the mapping
`{id: 1, name: "x"}` over columns `id`, `name`. -/
theorem serialize_deserialize_roundtrip_witness :
    ∃ result,
      (dict_to_inst ["id", "name"]
          [("id", JValue.num 1), ("name", JValue.str "x")]).map
          (inst_to_dict ["id", "name"]) = .ok result ∧
      ∀ k, result.lookup k
        = ([("id", JValue.num 1), ("name", JValue.str "x")] : WireMap).lookup k :=
  serialize_deserialize_roundtrip ["id", "name"]
    [("id", JValue.num 1), ("name", JValue.str "x")] (by decide) (by decide)

end GatcoApi
